import Mathlib

/-!
Shallow embedding of `src/src/main.rs` of the book-api repository: a small
catalog service holding book records (isbn, name, author) in an in-memory
registry (`struct Books(Vec<Book>)`), persisted wholesale as a JSON file,
with an enrichment lookup (`get_book`) against an external bibliographic API.

Modelling conventions:
* The registry `Books(Vec<Book>)` is a `List Book`.
* Rust panics (`.unwrap()` on `None`/`Err`, out-of-bounds `Vec` indexing)
  are modelled as `Option.none` results: `none` means the thread panics and
  the surrounding request crashes rather than producing a value.
* File I/O is abstracted: the outcome of `fs::write` is an explicit
  `Except String Unit` argument (the `Err e` case carries the error text),
  and the contents of the persisted file are a parsed JSON value
  (`JValue`), `none` standing for a missing/unreadable/unparsable file.
* Mutating operations return, besides the result and the new registry, the
  list of `save_books` calls performed (the registry contents written) and
  the log lines printed, so that "no persistence write occurs" and
  "the write failure is only logged" are visible in the model.
-/

namespace BookApi

/-- JSON values, as `serde_json::Value`. Numbers are modelled as `Int`
(no field relevant to this program holds a fractional number). An object
is its field list (`serde_json::Map`); keys produced by `serde_json` are
distinct, and lookup takes the first binding. -/
inductive JValue where
  | null
  | bool (b : Bool)
  | num (n : Int)
  | str (s : String)
  | arr (xs : List JValue)
  | obj (fields : List (String × JValue))

/-- `Value::get` via `Index<&str>`: `v["key"]` is `Null` when `v` is not an
object or the key is absent. -/
def JValue.get (v : JValue) (key : String) : JValue :=
  match v with
  | .obj fs =>
    match fs.lookup key with
    | some x => x
    | none => .null
  | _ => .null

/-- `Value` indexing via `Index<usize>`: `v[i]` is `Null` when `v` is not an
array or `i` is out of bounds. -/
def JValue.getIdx (v : JValue) (i : Nat) : JValue :=
  match v with
  | .arr xs => xs.getD i .null
  | _ => .null

/-- `Value::as_array`. -/
def JValue.asArray : JValue → Option (List JValue)
  | .arr xs => some xs
  | _ => none

/-- `Value::as_object`. -/
def JValue.asObject : JValue → Option (List (String × JValue))
  | .obj fs => some fs
  | _ => none

/-- `Value::as_str`. -/
def JValue.asStr : JValue → Option String
  | .str s => some s
  | _ => none

/-- Indexing a `serde_json::Map<String, Value>` with `&str`: `Null` when the
key is absent. -/
def objGet (fs : List (String × JValue)) (key : String) : JValue :=
  match fs.lookup key with
  | some x => x
  | none => .null

/-- `struct Book { isbn, name, author }`. -/
structure Book where
  isbn : String
  name : String
  author : String
deriving Repr, DecidableEq

/-- `Book::new`. -/
def Book.new (isbn name author : String) : Book :=
  { isbn := isbn, name := name, author := author }

/-- `struct Error { message }`. -/
structure Error where
  message : String
deriving Repr, DecidableEq

/-- `Books::get_all`: a full snapshot copy (`self.0.clone()`). -/
def Books.get_all (b : List Book) : List Book :=
  b

/-- `Books::find`: linear scan for an exact `isbn` match, first match wins;
reaching the end of the registry yields the `NotFound` error. -/
def Books.find : List Book → String → Except Error Book
  | [], isbn => .error { message := s!"Book with ISBN {isbn} not found" }
  | book :: rest, isbn =>
    if isbn = book.isbn then .ok book else Books.find rest isbn

/-- Serialization of one record, as derived `Serialize` for `Book`:
an object with the three string fields in declaration order. -/
def Book.toJson (bk : Book) : JValue :=
  .obj [("isbn", .str bk.isbn), ("name", .str bk.name), ("author", .str bk.author)]

/-- Serialization of the registry: `serde_json::to_string(&books)` writes a
JSON array of record objects. -/
def booksToJson (bs : List Book) : JValue :=
  .arr (bs.map Book.toJson)

/-- Deserialization of one record, as derived `Deserialize` for `Book`:
requires the three fields to be present with string values; unknown extra
fields are ignored (serde default). -/
def Book.fromJson (v : JValue) : Option Book :=
  match v with
  | .obj fs =>
    match fs.lookup "isbn", fs.lookup "name", fs.lookup "author" with
    | some (.str i), some (.str n), some (.str a) => some { isbn := i, name := n, author := a }
    | _, _, _ => none
  | _ => none

/-- Deserialization of a record sequence, element by element; any ill-shaped
element fails the whole parse. -/
def booksFromJsonList : List JValue → Option (List Book)
  | [] => some []
  | v :: rest =>
    match Book.fromJson v, booksFromJsonList rest with
    | some bk, some bs => some (bk :: bs)
    | _, _ => none

/-- Deserialization of the registry: `serde_json::from_str::<Vec<Book>>`. -/
def booksFromJson (v : JValue) : Option (List Book) :=
  match v with
  | .arr xs => booksFromJsonList xs
  | _ => none

/-- `load_books`: reads and parses the persisted file. The argument is the
parsed file contents (`none` when the file is missing, unreadable or not
valid JSON); both `.unwrap()` panics and a shape mismatch are `none`
(process startup fails). -/
def load_books (file : Option JValue) : Option (List Book) :=
  match file with
  | none => none
  | some v => booksFromJson v

/-- Result of `save_books`: the file contents after the call when the write
succeeded (`written`), and the log lines printed. -/
structure SaveResult where
  written : Option JValue
  logs : List String

/-- `save_books`: serializes the full registry and writes it; a write error
is only logged (`println!`), nothing is returned to the caller. -/
def save_books (books : List Book) (writeResult : Except String Unit) : SaveResult :=
  match writeResult with
  | .ok _ => { written := some (booksToJson books), logs := [] }
  | .error e => { written := none, logs := [s!"Error writing file: {e}"] }

/-- Outcome of a mutating store operation: the value returned to the caller,
the registry afterwards, the registry contents passed to each `save_books`
call performed, and the log lines printed. -/
structure MutResult where
  result : Except Error Unit
  books : List Book
  saves : List (List Book)
  logs : List String
deriving Repr

/-- `Books::add`: `find` first; a hit fails with "Book already exists in DB"
and neither mutates nor writes; a miss pushes the record and calls
`save_books` on the new registry, then returns `Ok(())` regardless of the
write outcome. -/
def Books.add (b : List Book) (book : Book) (writeResult : Except String Unit) : MutResult :=
  match Books.find b book.isbn with
  | .ok _ =>
    { result := .error { message := "Book already exists in DB" }
      books := b, saves := [], logs := [] }
  | .error _ =>
    let b' := b ++ [book]
    { result := .ok ()
      books := b'
      saves := [b']
      logs := (save_books b' writeResult).logs }

/-- `str::starts_with` on character sequences: first argument the haystack,
second the pattern. -/
def startsWith : List Char → List Char → Bool
  | _, [] => true
  | [], _ :: _ => false
  | a :: as, b :: bs => a = b && startsWith as bs

/-- `str::contains` on character sequences: does the pattern occur as a
contiguous subsequence of the haystack? -/
def containsSub : List Char → List Char → Bool
  | [], pat => startsWith [] pat
  | hay@(_ :: t), pat => startsWith hay pat || containsSub t pat

/-- Rust `haystack.contains(pattern)` on strings (byte-exact, hence
case-sensitive; a match of valid UTF-8 inside valid UTF-8 is always
character-aligned, so character sequences model it faithfully). -/
def strContains (s pat : String) : Bool :=
  containsSub s.data pat.data

/-- `Books::search`: keeps the records whose `name` (the title field)
contains the query, in registry order; an empty result is the
"No book found" error. -/
def Books.search (b : List Book) (name : String) : Except Error (List Book) :=
  let found := b.filter (fun book => strContains book.name name)
  if found.isEmpty then .error { message := "No book found" } else .ok found

/-- Modelled from the spec: `Books::remove` (and the `POST /remove` route) is
described in spec sections 4.1 and 6 but absent from `src/src/main.rs`.
In the words of the spec: "if no record with that `isbn` exists, fails with
`NotFound`. Otherwise removes the single matching record, then persists the
full registry, same swallow-on-write-failure behavior as `add`." The
`NotFound` error reuses the message shape the spec gives in section 6. -/
def Books.remove (b : List Book) (isbn : String) (writeResult : Except String Unit) : MutResult :=
  match Books.find b isbn with
  | .error e =>
    { result := .error e, books := b, saves := [], logs := [] }
  | .ok _ =>
    let b' := b.eraseP (fun bk => bk.isbn == isbn)
    { result := .ok ()
      books := b'
      saves := [b']
      logs := (save_books b' writeResult).logs }

/-- `get_book`: the enrichment lookup. `response` is the parsed JSON body of
the Google Books query, `none` when the HTTP request, the body read or the
JSON parse fails (each of those is an `.unwrap()` in the source). Every
`none` returned models a panic: `data["items"].as_array().unwrap()`,
the out-of-bounds `&items[0]` on an empty items array,
`item["volumeInfo"].as_object().unwrap()`,
`volume_info["title"].as_str().unwrap()` and
`volume_info["authors"][0].as_str().unwrap()`. -/
def get_book (isbn : String) (response : Option JValue) : Option Book :=
  match response with
  | none => none
  | some data =>
    match (data.get "items").asArray with
    | none => none
    | some items =>
      match items with
      | [] => none
      | item :: _ =>
        match (item.get "volumeInfo").asObject with
        | none => none
        | some volume_info =>
          match (objGet volume_info "title").asStr with
          | none => none
          | some name =>
            match ((objGet volume_info "authors").getIdx 0).asStr with
            | none => none
            | some author => some (Book.new isbn name author)

/-- A sequence of `add` calls against the store, each with its own write
outcome; the registry threads through. -/
def addAll (b : List Book) : List (Book × Except String Unit) → List Book
  | [] => b
  | (bk, w) :: rest => addAll (Books.add b bk w).books rest

/-- The `POST /add` handler: awaits `get_book`, then locks the store and
calls `add`, returning `"Success"` or the message of the error as the response
body. A `get_book` panic crashes the request before the store is touched:
modelled as `none` (no response body, registry untouched). -/
def add_handler (isbn : String) (response : Option JValue) (b : List Book)
    (writeResult : Except String Unit) : Option (String × List Book) :=
  match get_book isbn response with
  | none => none
  | some book =>
    let r := Books.add b book writeResult
    some ((match r.result with
           | .ok _ => "Success"
           | .error error => error.message), r.books)

/-! ## Helper lemmas -/

/-- `Books.find` succeeds exactly on the first record whose `isbn` matches,
in the sense of `List.find?`. -/
theorem find_ok_iff (b : List Book) (isbn : String) (r : Book) :
    Books.find b isbn = .ok r ↔ b.find? (fun bk => isbn == bk.isbn) = some r := by
  induction b with
  | nil => simp [Books.find]
  | cons hd tl ih =>
    by_cases h : isbn = hd.isbn
    · rw [Books.find, if_pos h, List.find?_cons_of_pos _ (by simp [h])]
      simp
    · rw [Books.find, if_neg h, List.find?_cons_of_neg _ (by simp [h])]
      exact ih

/-- `Books.find` fails exactly when no record matches, and then the error
carries the `NotFound` message. -/
theorem find_eq_error_iff (b : List Book) (isbn : String) (e : Error) :
    Books.find b isbn = .error e ↔
      ((∀ r ∈ b, r.isbn ≠ isbn) ∧
        e = { message := s!"Book with ISBN {isbn} not found" }) := by
  induction b with
  | nil => simp [Books.find, eq_comm]
  | cons hd tl ih =>
    by_cases h : isbn = hd.isbn
    · rw [Books.find, if_pos h]
      constructor
      · intro hc; exact Except.noConfusion hc
      · rintro ⟨hall, -⟩
        exact absurd h.symm (hall hd (List.mem_cons_self hd tl))
    · rw [Books.find, if_neg h, ih]
      constructor
      · rintro ⟨hall, he⟩
        refine ⟨fun r hr => ?_, he⟩
        rcases List.mem_cons.mp hr with rfl | hr
        · exact fun hh => h hh.symm
        · exact hall r hr
      · rintro ⟨hall, he⟩
        exact ⟨fun r hr => hall r (List.mem_cons_of_mem hd hr), he⟩

/-- When some record matches, `Books.find` succeeds. -/
theorem find_isOk_of_mem (b : List Book) (isbn : String)
    (h : ∃ r ∈ b, r.isbn = isbn) : ∃ r, Books.find b isbn = .ok r := by
  cases hf : Books.find b isbn with
  | ok r => exact ⟨r, rfl⟩
  | error e =>
    rcases h with ⟨r, hr, hisbn⟩
    exact absurd hisbn (((find_eq_error_iff b isbn e).mp hf).1 r hr)

/-- `startsWith hay pat` says `pat` is an initial segment of `hay`. -/
theorem startsWith_iff (hay pat : List Char) :
    startsWith hay pat = true ↔ ∃ rest, hay = pat ++ rest := by
  induction hay generalizing pat with
  | nil =>
    cases pat with
    | nil => simp [startsWith]
    | cons b bs => simp [startsWith]
  | cons a t ih =>
    cases pat with
    | nil => simp [startsWith]
    | cons b bs =>
      simp only [startsWith, Bool.and_eq_true, decide_eq_true_eq, List.cons_append,
        List.cons.injEq, ih]
      constructor
      · rintro ⟨rfl, rest, rfl⟩; exact ⟨rest, rfl, rfl⟩
      · rintro ⟨rest, rfl, rfl⟩; exact ⟨rfl, rest, rfl⟩

/-- `containsSub hay pat` says `pat` occurs contiguously inside `hay`. -/
theorem containsSub_iff (hay pat : List Char) :
    containsSub hay pat = true ↔ ∃ pre post, hay = pre ++ (pat ++ post) := by
  induction hay with
  | nil =>
    rw [show containsSub [] pat = startsWith [] pat from rfl, startsWith_iff]
    constructor
    · rintro ⟨rest, h⟩; exact ⟨[], rest, h⟩
    · rintro ⟨pre, post, h⟩
      rcases List.append_eq_nil.mp h.symm with ⟨rfl, h2⟩
      exact ⟨post, by simpa using h⟩
  | cons a t ih =>
    rw [show containsSub (a :: t) pat = (startsWith (a :: t) pat || containsSub t pat)
      from rfl]
    simp only [Bool.or_eq_true, startsWith_iff, ih]
    constructor
    · rintro (⟨rest, h⟩ | ⟨pre, post, h⟩)
      · exact ⟨[], rest, by simpa using h⟩
      · exact ⟨a :: pre, post, by simp [h]⟩
    · rintro ⟨pre, post, h⟩
      cases pre with
      | nil => exact Or.inl ⟨post, by simpa using h⟩
      | cons x xs =>
        rw [List.cons_append] at h
        rcases List.cons.injEq .. ▸ h with ⟨rfl, rfl⟩
        exact Or.inr ⟨xs, post, rfl⟩

/-- `strContains s pat` is exactly contiguous, character-exact occurrence. -/
theorem strContains_iff (s pat : String) :
    strContains s pat = true ↔ ∃ pre post, s.data = pre ++ (pat.data ++ post) :=
  containsSub_iff s.data pat.data

/-- The empty pattern occurs in every string (`"x".contains("")` in Rust). -/
theorem strContains_empty (s : String) : strContains s "" = true := by
  cases h : s.data with
  | nil => simp [strContains, h, containsSub, startsWith]
  | cons a t => simp [strContains, h, containsSub, startsWith]

/-- Erasing the first hit equals filtering all hits out when at most one
element satisfies the predicate. -/
theorem eraseP_eq_filter_not {α : Type _} (l : List α) (p : α → Bool)
    (h : (l.filter p).length ≤ 1) :
    l.eraseP p = l.filter (fun a => !(p a)) := by
  induction l with
  | nil => rfl
  | cons a t ih =>
    cases hp : p a with
    | true =>
      rw [List.eraseP_cons_of_pos hp, List.filter_cons_of_neg (by simp [hp])]
      rw [List.filter_cons_of_pos hp] at h
      have hnil : t.filter p = [] := by
        cases hft : t.filter p with
        | nil => rfl
        | cons x xs => rw [hft] at h; simp at h
      have : ∀ x ∈ t, ¬ p x = true := List.filter_eq_nil_iff.mp hnil
      exact (List.filter_eq_self.mpr fun x hx => by simp [this x hx]).symm
    | false =>
      rw [List.eraseP_cons_of_neg (by simp [hp]),
        List.filter_cons_of_pos (by simp [hp])]
      rw [List.filter_cons_of_neg (by simp [hp])] at h
      rw [ih h]

/-! ## Claims -/

/-- C6: `find(isbn)` linearly scans for an exact ISBN match and returns the
first matching record (the first entry satisfying the match, in the sense of
`List.find?`); when no record has that ISBN it fails with a `NotFound` error
carrying the message "Book with ISBN {isbn} not found". -/
theorem find_first_match_or_notfound (b : List Book) (isbn : String) :
    (∀ r : Book, Books.find b isbn = .ok r ↔
        b.find? (fun bk => isbn == bk.isbn) = some r)
    ∧ (∀ r : Book, Books.find b isbn = .ok r → r ∈ b ∧ r.isbn = isbn)
    ∧ (Books.find b isbn = .error { message := s!"Book with ISBN {isbn} not found" } ↔
        ∀ r ∈ b, r.isbn ≠ isbn) := by
  refine ⟨fun r => find_ok_iff b isbn r, fun r h => ?_, ?_⟩
  · have hf := (find_ok_iff b isbn r).mp h
    have h2 : isbn = r.isbn := by simpa using List.find?_some hf
    exact ⟨List.mem_of_find?_eq_some hf, h2.symm⟩
  · constructor
    · intro h
      exact ((find_eq_error_iff b isbn _).mp h).1
    · intro h
      exact (find_eq_error_iff b isbn _).mpr ⟨h, rfl⟩

/-- C6 witness: a concrete hit returns the first (unique) match and a
concrete miss yields the formatted `NotFound` message. -/
theorem find_first_match_or_notfound_w :
    Books.find [⟨"111", "A", "X"⟩] "111" = .ok ⟨"111", "A", "X"⟩
    ∧ Books.find ([] : List Book) "9" =
        .error { message := "Book with ISBN 9 not found" } :=
  ⟨((find_first_match_or_notfound [⟨"111", "A", "X"⟩] "111").1
      ⟨"111", "A", "X"⟩).mpr (by decide),
   (find_first_match_or_notfound [] "9").2.2.mpr (by simp)⟩

/-- C3: adding a record whose ISBN already occurs fails with the
`AlreadyExists` error ("Book already exists in DB"), leaves the registry
contents identical (so `list()` is unchanged), and performs no persistence
write. -/
theorem add_duplicate_unchanged (b : List Book) (book : Book)
    (w : Except String Unit) (h : ∃ r ∈ b, r.isbn = book.isbn) :
    Books.add b book w =
      { result := .error { message := "Book already exists in DB" }
        books := b, saves := [], logs := [] }
    ∧ Books.get_all (Books.add b book w).books = Books.get_all b := by
  obtain ⟨r, hf⟩ := find_isOk_of_mem b book.isbn h
  refine ⟨?_, ?_⟩ <;> rw [Books.add, hf]

/-- C3 witness: a concrete duplicate add is rejected without mutation or
write. -/
theorem add_duplicate_unchanged_w :
    Books.add [⟨"111", "A", "X"⟩] ⟨"111", "B", "Y"⟩ (.ok ()) =
      { result := .error { message := "Book already exists in DB" }
        books := [⟨"111", "A", "X"⟩], saves := [], logs := [] }
    ∧ Books.get_all (Books.add [⟨"111", "A", "X"⟩] ⟨"111", "B", "Y"⟩ (.ok ())).books =
        Books.get_all [⟨"111", "A", "X"⟩] :=
  add_duplicate_unchanged [⟨"111", "A", "X"⟩] ⟨"111", "B", "Y"⟩ (.ok ())
    ⟨⟨"111", "A", "X"⟩, by simp⟩

/-- C4: starting from a registry with pairwise distinct ISBNs, every sequence
of `add` calls leaves the ISBNs pairwise distinct (so the registry never
holds two records with equal `isbn` at any reachable state), and a single
`add` or `remove` step preserves the at-most-one-record-per-ISBN
invariant. -/
theorem registry_isbn_nodup_invariant (b : List Book)
    (h : (b.map Book.isbn).Nodup) :
    (∀ calls : List (Book × Except String Unit),
      ((addAll b calls).map Book.isbn).Nodup)
    ∧ (∀ (book : Book) (w : Except String Unit),
      (((Books.add b book w).books).map Book.isbn).Nodup)
    ∧ (∀ (isbn : String) (w : Except String Unit),
      (((Books.remove b isbn w).books).map Book.isbn).Nodup) := by
  have step : ∀ (b' : List Book) (book : Book) (w : Except String Unit),
      (b'.map Book.isbn).Nodup → (((Books.add b' book w).books).map Book.isbn).Nodup := by
    intro b' book w hb
    cases hf : Books.find b' book.isbn with
    | ok r => rw [Books.add, hf]; exact hb
    | error e =>
      rw [Books.add, hf]
      have hnomem := ((find_eq_error_iff b' book.isbn e).mp hf).1
      simp only [List.map_append, List.map_cons, List.map_nil]
      rw [List.nodup_append]
      refine ⟨hb, List.nodup_singleton _, fun x hx hy => ?_⟩
      rcases List.mem_map.mp hx with ⟨r, hr, rfl⟩
      exact hnomem r hr (List.mem_singleton.mp hy)
  refine ⟨fun calls => ?_, fun book w => step b book w h, fun isbn w => ?_⟩
  · induction calls generalizing b with
    | nil => exact h
    | cons c rest ih => exact ih _ (step b c.1 c.2 h)
  · cases hf : Books.find b isbn with
    | error e => rw [Books.remove, hf]; exact h
    | ok r =>
      rw [Books.remove, hf]
      exact ((List.eraseP_sublist b).map Book.isbn).nodup h

/-- C4 witness: from the empty registry, a concrete add sequence with a
repeated ISBN still yields pairwise distinct ISBNs. -/
theorem registry_isbn_nodup_invariant_w :
    ((addAll []
        [(⟨"1", "A", "X"⟩, .ok ()), (⟨"1", "B", "Y"⟩, .ok ()),
         (⟨"2", "C", "Z"⟩, .error "disk full")]).map Book.isbn).Nodup :=
  (registry_isbn_nodup_invariant [] (by simp)).1
    [(⟨"1", "A", "X"⟩, .ok ()), (⟨"1", "B", "Y"⟩, .ok ()),
     (⟨"2", "C", "Z"⟩, .error "disk full")]

/-- C7: when the persistence write fails after a successful `add` mutation,
the failure is only logged: the registry keeps the appended record (no
rollback), `add` reports success, and the `POST /add` response body is
"Success", so the error is never surfaced to the HTTP caller. -/
theorem write_failure_only_logged (b : List Book) (book : Book) (e : String)
    (h : ∀ r ∈ b, r.isbn ≠ book.isbn) :
    Books.add b book (.error e) =
      { result := .ok (), books := b ++ [book], saves := [b ++ [book]]
        logs := [s!"Error writing file: {e}"] }
    ∧ (match (Books.add b book (.error e)).result with
       | .ok _ => "Success"
       | .error error => error.message) = "Success" := by
  have hf : Books.find b book.isbn =
      .error { message := s!"Book with ISBN {book.isbn} not found" } :=
    (find_eq_error_iff b book.isbn _).mpr ⟨h, rfl⟩
  refine ⟨?_, ?_⟩
  · rw [Books.add, hf]; rfl
  · rw [Books.add, hf]

/-- C7 witness: a concrete add over a failing disk keeps the record, logs the
error and answers "Success". -/
theorem write_failure_only_logged_w :
    Books.add [⟨"1", "A", "X"⟩] ⟨"2", "B", "Y"⟩ (.error "disk full") =
      { result := .ok ()
        books := [⟨"1", "A", "X"⟩, ⟨"2", "B", "Y"⟩]
        saves := [[⟨"1", "A", "X"⟩, ⟨"2", "B", "Y"⟩]]
        logs := ["Error writing file: disk full"] }
    ∧ (match (Books.add [⟨"1", "A", "X"⟩] ⟨"2", "B", "Y"⟩ (.error "disk full")).result with
       | .ok _ => "Success"
       | .error error => error.message) = "Success" := by
  have := write_failure_only_logged [⟨"1", "A", "X"⟩] ⟨"2", "B", "Y"⟩ "disk full"
    (by decide)
  simpa using this

/-- C5: `search(q)` performs a case-sensitive contiguous substring match
against the title field: its matches are exactly the records whose title
contains the query as a contiguous, character-exact substring, kept in
registry order (a sublist of the registry); a non-empty match list is
returned whole and zero matches fail with the "No book found" error. -/
theorem search_substring_case_sensitive (b : List Book) (q : String) :
    (∀ r : Book, r ∈ b.filter (fun bk => strContains bk.name q) ↔
        r ∈ b ∧ ∃ pre post, r.name.data = pre ++ (q.data ++ post))
    ∧ (b.filter (fun bk => strContains bk.name q)).Sublist b
    ∧ (b.filter (fun bk => strContains bk.name q) ≠ [] →
        Books.search b q = .ok (b.filter (fun bk => strContains bk.name q)))
    ∧ (b.filter (fun bk => strContains bk.name q) = [] →
        Books.search b q = .error { message := "No book found" }) := by
  refine ⟨fun r => ?_, List.filter_sublist b, fun h => ?_, fun h => ?_⟩
  · rw [List.mem_filter, strContains_iff]
  · simp only [Books.search]
    rw [if_neg (by simpa [List.isEmpty_iff] using h)]
  · simp only [Books.search]
    rw [if_pos (by simpa [List.isEmpty_iff] using h)]

/-- C5 witness: "Harry" matches the title "Harry Potter" but neither
"harry potter" (case mismatch) nor "Har Potter" (non-contiguous), and a
zero-match query fails with "No book found". -/
theorem search_substring_case_sensitive_w :
    Books.search [⟨"1", "Harry Potter", "J"⟩, ⟨"2", "harry potter", "J"⟩,
        ⟨"3", "Har Potter", "J"⟩] "Harry" = .ok [⟨"1", "Harry Potter", "J"⟩]
    ∧ Books.search [⟨"3", "Har Potter", "J"⟩] "Harry" =
        .error { message := "No book found" } := by
  constructor
  · have hfilter : List.filter (fun bk => strContains bk.name "Harry")
        [⟨"1", "Harry Potter", "J"⟩, ⟨"2", "harry potter", "J"⟩,
         ⟨"3", "Har Potter", "J"⟩] = [(⟨"1", "Harry Potter", "J"⟩ : Book)] := by decide
    rw [← hfilter]
    exact (search_substring_case_sensitive [⟨"1", "Harry Potter", "J"⟩,
      ⟨"2", "harry potter", "J"⟩, ⟨"3", "Har Potter", "J"⟩] "Harry").2.2.1
      (by decide)
  · exact (search_substring_case_sensitive [⟨"3", "Har Potter", "J"⟩]
      "Harry").2.2.2 (by decide)

/-- C9: the empty query matches every record (empty-substring containment is
always true), so on a non-empty registry `search("")` returns the whole
registry in order, and on the empty registry it fails with `NotFound`. -/
theorem search_empty_query_matches_all (b : List Book) :
    (b ≠ [] → Books.search b "" = .ok b)
    ∧ Books.search ([] : List Book) "" = .error { message := "No book found" } := by
  constructor
  · intro h
    have hfilter : b.filter (fun bk => strContains bk.name "") = b :=
      List.filter_eq_self.mpr fun a _ => strContains_empty a.name
    simp only [Books.search, hfilter]
    rw [if_neg (by simpa [List.isEmpty_iff] using h)]
  · rfl

/-- C9 witness: a concrete one-record registry is returned whole by the
empty query. -/
theorem search_empty_query_matches_all_w :
    Books.search [⟨"1", "A", "X"⟩] "" = .ok [⟨"1", "A", "X"⟩] :=
  (search_empty_query_matches_all [⟨"1", "A", "X"⟩]).1 (by decide)

/-- C2: `remove(isbn)` (modelled from the spec, absent from the source)
fails with `NotFound` and leaves the registry unchanged, with no write, when
no record matches; otherwise it succeeds, removes the single matching record
keeping the survivors in order (the registry becomes the order-preserving
filter dropping that ISBN), and persists the full resulting registry. -/
theorem remove_notfound_or_erase (b : List Book) (isbn : String)
    (w : Except String Unit)
    (huniq : (b.filter (fun r => r.isbn == isbn)).length ≤ 1) :
    ((∀ r ∈ b, r.isbn ≠ isbn) →
      Books.remove b isbn w =
        { result := .error { message := s!"Book with ISBN {isbn} not found" }
          books := b, saves := [], logs := [] })
    ∧ ((∃ r ∈ b, r.isbn = isbn) →
      (Books.remove b isbn w).result = .ok ()
      ∧ (Books.remove b isbn w).books = b.filter (fun r => !(r.isbn == isbn))
      ∧ (Books.remove b isbn w).saves = [b.filter (fun r => !(r.isbn == isbn))]) := by
  constructor
  · intro h
    have hf : Books.find b isbn =
        .error { message := s!"Book with ISBN {isbn} not found" } :=
      (find_eq_error_iff b isbn _).mpr ⟨h, rfl⟩
    rw [Books.remove, hf]
  · intro h
    obtain ⟨r, hf⟩ := find_isOk_of_mem b isbn h
    have herase : b.eraseP (fun bk => bk.isbn == isbn) =
        b.filter (fun r => !(r.isbn == isbn)) :=
      eraseP_eq_filter_not b (fun bk => bk.isbn == isbn) huniq
    rw [Books.remove, hf]
    exact ⟨rfl, herase, by rw [show (List.eraseP (fun bk => bk.isbn == isbn) b) =
      b.filter (fun r => !(r.isbn == isbn)) from herase]⟩

/-- C2 witness: removing an absent ISBN is a no-op `NotFound`; removing a
present one succeeds. -/
theorem remove_notfound_or_erase_w :
    Books.remove [⟨"111", "A", "X"⟩] "999" (.ok ()) =
      { result := .error { message := "Book with ISBN 999 not found" }
        books := [⟨"111", "A", "X"⟩], saves := [], logs := [] }
    ∧ (Books.remove [⟨"111", "A", "X"⟩] "111" (.ok ())).result = .ok () := by
  constructor
  · exact (remove_notfound_or_erase [⟨"111", "A", "X"⟩] "999" (.ok ())
      (by decide)).1 (by decide)
  · exact ((remove_notfound_or_erase [⟨"111", "A", "X"⟩] "111" (.ok ())
      (by decide)).2 ⟨⟨"111", "A", "X"⟩, by simp, rfl⟩).1

/-- C8: persisting the registry writes its JSON serialization, and parsing
that serialization back yields the identical record sequence in identical
order. -/
theorem persist_round_trip (bs : List Book) :
    (save_books bs (.ok ())).written = some (booksToJson bs)
    ∧ load_books (some (booksToJson bs)) = some bs := by
  have key : ∀ l : List Book, booksFromJsonList (l.map Book.toJson) = some l := by
    intro l
    induction l with
    | nil => rfl
    | cons bk rest ih =>
      have h1 : Book.fromJson (Book.toJson bk) = some bk := rfl
      simp [List.map_cons, booksFromJsonList, h1, ih]
  exact ⟨rfl, key bs⟩

/-- C10: the load path performs no uniqueness validation: a persisted file
holding two records with equal ISBN loads successfully into a registry that
violates the at-most-one-record-per-ISBN invariant, and a later `add` of a
fresh ISBN neither detects nor repairs the duplicate. -/
theorem load_accepts_duplicate_isbn :
    load_books (some (.arr
      [.obj [("isbn", .str "111"), ("name", .str "A"), ("author", .str "X")],
       .obj [("isbn", .str "111"), ("name", .str "B"), ("author", .str "Y")]])) =
      some [⟨"111", "A", "X"⟩, ⟨"111", "B", "Y"⟩]
    ∧ ¬ (([⟨"111", "A", "X"⟩, ⟨"111", "B", "Y"⟩] : List Book).map Book.isbn).Nodup
    ∧ ¬ (((Books.add [⟨"111", "A", "X"⟩, ⟨"111", "B", "Y"⟩] ⟨"222", "C", "Z"⟩
        (.ok ())).books).map Book.isbn).Nodup := by
  exact ⟨rfl, by decide, by decide⟩

/-- C1 counterexample: on the zero-result lookup response
(`{"kind": "books#volumes", "totalItems": 0}`, no `items` array), the
enrichment lookup produces no typed failure value — the model yields `none`,
standing for the `data["items"].as_array().unwrap()` panic — and the
`POST /add` request yields no response at all (`isSome = false`) instead of
propagating a failure message to the caller. -/
theorem lookup_failure_not_typed_cex :
    get_book "0000000000"
      (some (.obj [("kind", .str "books#volumes"), ("totalItems", .num 0)])) = none
    ∧ (add_handler "0000000000"
        (some (.obj [("kind", .str "books#volumes"), ("totalItems", .num 0)]))
        [] (.ok ())).isSome = false :=
  ⟨rfl, rfl⟩

/-- C1 (amended): the enrichment lookup panics rather than returning a typed
failure: when the remote call (or body read or JSON parse) errors, when the
response has zero result items (absent or empty `items`), or when the first
title/author fields of the first item are absent or not strings, `get_book` crashes
(`none`) and the `POST /add` request crashes with it, producing no failure
message and leaving the registry untouched. -/
theorem lookup_failure_panics (isbn : String) (b : List Book)
    (w : Except String Unit) (resp : Option JValue)
    (h : resp = none
      ∨ (∃ fs, resp = some (.obj fs)
          ∧ (fs.lookup "items" = none ∨ fs.lookup "items" = some (.arr [])))
      ∨ (∃ vi rest, resp = some (.obj [("items",
            .arr (.obj [("volumeInfo", .obj vi)] :: rest))])
          ∧ ((objGet vi "title").asStr = none
            ∨ ((objGet vi "authors").getIdx 0).asStr = none))) :
    get_book isbn resp = none ∧ add_handler isbn resp b w = none := by
  have hg : get_book isbn resp = none := by
    rcases h with rfl | ⟨fs, rfl, hitems⟩ | ⟨vi, rest, rfl, hvi⟩
    · rfl
    · rcases hitems with hnone | hempty
      · simp [get_book, JValue.get, hnone, JValue.asArray]
      · simp [get_book, JValue.get, hempty, JValue.asArray]
    · have hred : get_book isbn (some (.obj [("items",
          .arr (.obj [("volumeInfo", .obj vi)] :: rest))])) =
        (match (objGet vi "title").asStr with
          | none => none
          | some name =>
            match ((objGet vi "authors").getIdx 0).asStr with
            | none => none
            | some author => some (Book.new isbn name author)) := rfl
      rw [hred]
      rcases hvi with htitle | hauthor
      · rw [htitle]
      · cases hT : (objGet vi "title").asStr with
        | none => rfl
        | some name => simp [hauthor]
  exact ⟨hg, by rw [add_handler, hg]⟩

/-- C1 witness: the amended theorem applied to a concrete zero-result
response. -/
theorem lookup_failure_panics_w :
    get_book "0" (some (.obj [("totalItems", .num 0)])) = none
    ∧ add_handler "0" (some (.obj [("totalItems", .num 0)])) [] (.ok ()) = none :=
  lookup_failure_panics "0" [] (.ok ()) (some (.obj [("totalItems", .num 0)]))
    (Or.inr (Or.inl ⟨[("totalItems", .num 0)], rfl, Or.inl rfl⟩))

end BookApi
